import Mathlib

/-!
Verification development for the recommender-system repository.

The Python sources are shallowly embedded:
* float vectors become `List ℝ` (scores and norms are real numbers);
* dictionaries become association lists (`List (String × _)`), first
  binding wins on lookup, matching Redis key semantics;
* the Redis client is a record of fallible operations returning
  `Except Unit _`, so store failures are explicit;
* Python `sorted`/`list.sort` with a key and `reverse=True` becomes
  `List.insertionSort` with a "greater or equal score" relation (the
  claims under study only concern sortedness, not tie order).
-/

namespace Recommender

/-! ## Real-vector helpers (numpy / math level) -/

/-- Models `sum(a * b for a, b in zip(vec1, vec2))`, also `np.dot` on float lists. -/
def dotProduct (v w : List ℝ) : ℝ := (List.zipWith (· * ·) v w).sum

/-- Models `sum(a * a for a in vec)`, the squared Euclidean norm. -/
def sumSq (v : List ℝ) : ℝ := (v.map fun x => x * x).sum

/-- Models `math.sqrt(sum(a * a for a in vec))`, also `np.linalg.norm`. -/
noncomputable def vecNorm (v : List ℝ) : ℝ := Real.sqrt (sumSq v)

/-- Models `RecommendationService.calculate_cosine_similarity` /
`RedisService._calculate_cosine_similarity`: both guard a length mismatch
and a zero magnitude with an early `return 0.0`, otherwise divide the dot
product by the product of the magnitudes. -/
noncomputable def calculate_cosine_similarity (v1 v2 : List ℝ) : ℝ :=
  if v1.length ≠ v2.length then 0
  else if vecNorm v1 = 0 ∨ vecNorm v2 = 0 then 0
  else dotProduct v1 v2 / (vecNorm v1 * vecNorm v2)

/-! ## `DataProcessor.build_cooccurrence_matrix`

The Python loop is, per order,
`for i, item1 in enumerate(items): for j, item2 in enumerate(items):
  if i != j: self.item_cooccurrence[item1][item2] += 1`.
The final value of `item_cooccurrence[a][b]` is therefore the number of
increments issued for the pair of names `(a, b)`.  We collect the list of
increments and count. -/

/-- The `(item1, item2)` increments one order's item list contributes:
all position pairs `(i, j)` with `i ≠ j`, in loop order. -/
def orderIncrements (items : List String) : List (String × String) :=
  (List.range items.length).flatMap fun i =>
    (List.range items.length).filterMap fun j =>
      if i ≠ j then some (items.getD i "", items.getD j "") else none

/-- Final co-occurrence count for `(a, b)` after
`build_cooccurrence_matrix` has processed every order. -/
def cooccCount (orders : List (List String)) (a b : String) : Nat :=
  (orders.flatMap orderIncrements).count (a, b)

/-! ## `HuggingFaceEmbeddingService.preprocess_item_name`

Modelled on `List Char`.  `pyWs` is Python's `\s` class, `isSepChar` the
regex class `[-_/\\]`.  `collapseWs` is `re.sub(r'\s+', ' ', _)` (every
maximal whitespace run becomes one space), `countTokens` is
`len(s.split())` (number of maximal non-whitespace runs). -/

def pyWs (c : Char) : Bool :=
  c == ' ' || c == '\t' || c == '\n' || c == '\r' || c == '\x0b' || c == '\x0c'

def isSepChar (c : Char) : Bool :=
  c == '-' || c == '_' || c == '/' || c == '\\'

/-- Models the leading part of Python `str.strip()`. -/
def lstrip (l : List Char) : List Char := l.dropWhile pyWs

/-- Models the trailing part of Python `str.strip()`. -/
def rstrip (l : List Char) : List Char := (l.reverse.dropWhile pyWs).reverse

/-- Models Python `str.strip()`. -/
def pyStrip (l : List Char) : List Char := rstrip (lstrip l)

/-- Models `re.sub` with the separator class (hyphen, underscore, slash, backslash) replaced by a space. -/
def replaceSeparators (l : List Char) : List Char :=
  l.map fun c => if isSepChar c then ' ' else c

/-- Helper for `collapseWs`; the flag records whether the previous
character was whitespace (so the run is already represented). -/
def collapseAux : Bool → List Char → List Char
  | _, [] => []
  | prevWs, c :: rest =>
    if pyWs c then
      if prevWs then collapseAux true rest else ' ' :: collapseAux true rest
    else c :: collapseAux false rest

/-- Models the whitespace-collapsing `re.sub` (every whitespace run becomes one space). -/
def collapseWs (l : List Char) : List Char := collapseAux false l

/-- Helper for `countTokens`; the flag records whether we are inside a
non-whitespace run. -/
def countTokensAux : Bool → List Char → Nat
  | _, [] => 0
  | inTok, c :: rest =>
    if pyWs c then countTokensAux false rest
    else if inTok then countTokensAux true rest
    else countTokensAux true rest + 1

/-- Models `len(s.split())`. -/
def countTokens (l : List Char) : Nat := countTokensAux false l

/-- The characters of `"product "`, the prefix added by the f-string
`f"product {processed}"`. -/
def productToken : List Char := "product ".toList

/-- Models `HuggingFaceEmbeddingService.preprocess_item_name`, char-list level:
strip, replace separators, collapse whitespace, prepend `"product "` when
at most two tokens remain, and strip the result again. -/
def preprocessCore (l : List Char) : List Char :=
  let p := collapseWs (replaceSeparators (pyStrip l))
  let p2 := if countTokens p ≤ 2 then productToken ++ p else p
  pyStrip p2

/-- Models `HuggingFaceEmbeddingService.preprocess_item_name` on `String`. -/
def preprocess_item_name (s : String) : String := ⟨preprocessCore s.toList⟩

/-- Modelled from the spec: the preprocessing pipeline exactly as the
claim words it — trim, replace each separator with a space, collapse
repeated whitespace to one space, and if the resulting label has two or
fewer whitespace-delimited tokens prepend the token `"product"`.  (No
final trim is mentioned.)  Kept separate so it can be compared with the
source-derived `preprocess_item_name`. -/
def claimedPreprocess (s : String) : String :=
  ⟨(let p := collapseWs (replaceSeparators (pyStrip s.toList));
    if countTokens p ≤ 2 then productToken ++ p else p)⟩

/-- Models a Python `str.strip()` call on a `String` value. -/
def stripString (s : String) : String := ⟨pyStrip s.toList⟩

/-! ## Redis store model

A hash value stored under an `item:`/`hf:` key by
`RedisService.set_item_embedding` / `bulk_store_embeddings`; the JSON
round trip through `json.dumps`/`json.loads` is the identity at this
level of modelling. -/

structure StoredHash where
  embedding : List ℝ
  metadata : List (String × String)
  embedding_dimension : Nat
  last_updated : String

/-- The key space: an association list, first binding wins (a fresh
`HSET` shadows the previous value of the same key). -/
def Store : Type := List (String × StoredHash)

def hsetStore (st : Store) (key : String) (h : StoredHash) : Store :=
  ((key, h) :: st : List (String × StoredHash))

def hgetallStore (st : Store) (key : String) : Option StoredHash :=
  ((st : List (String × StoredHash)).find? fun p => p.1 == key).map (·.2)

/-- The async Redis client, as seen by `RedisService`: every operation
can fail (`Except.error`), which the Python code catches. `keys` is
`KEYS pattern` restricted to the two prefixes the service uses, and
`popular` is `GET "popular_items"` already parsed (the code `eval`s the
stored `str(dict)` blob back into the structure that was written). -/
structure Client where
  hgetall : String → Except Unit (Option StoredHash)
  keys : String → Except Unit (List String)
  popular : Except Unit (Option (List (String × Nat)))

/-- A healthy client backed by a concrete key space and popularity
snapshot. -/
def okClient (st : Store) (pop : Option (List (String × Nat))) : Client where
  hgetall := fun k => .ok (hgetallStore st k)
  keys := fun pre => .ok (((st : List (String × StoredHash)).map Prod.fst).filter
    fun k => k.startsWith pre)
  popular := .ok pop

/-- A client whose every operation fails (backend unreachable). -/
def failClient : Client where
  hgetall := fun _ => .error ()
  keys := fun _ => .error ()
  popular := .error ()

/-- Key prefix chosen from the `embedding_type`, as in
`get_item_embedding` / `get_all_embeddings`. -/
def variantKeyBase (variant : String) : String :=
  if variant = "huggingface" then "hf:" else "item:"

/-- Models `RedisService.set_item_embedding`: `HSET item:<name>` with the JSON
embedding, metadata, `embedding_dimension = len(embedding)` and a
timestamp. -/
def set_item_embedding (st : Store) (item_name : String) (v : List ℝ)
    (metadata : List (String × String)) (now : String) : Store :=
  hsetStore st ("item:" ++ item_name) ⟨v, metadata, v.length, now⟩

/-- The record `RedisService.get_item_embedding` returns on success. -/
structure EmbOut where
  embedding : List ℝ
  metadata : List (String × String)
  embedding_dimension : Nat
  last_updated : String
  embedding_type : String

/-- Models `RedisService.get_item_embedding`: read the variant-tagged hash;
any store error is caught and turned into `None`. -/
def get_item_embedding (c : Client) (item_name variant : String) : Option EmbOut :=
  match c.hgetall (variantKeyBase variant ++ item_name) with
  | .error _ => none
  | .ok none => none
  | .ok (some h) =>
      some ⟨h.embedding, h.metadata, h.embedding_dimension, h.last_updated, variant⟩

/-- Models `RedisService.get_all_embeddings`: scan the variant's keys, skipping
per-key failures; a failure of the scan itself yields the empty dict. -/
def get_all_embeddings (c : Client) (variant : String) : List (String × EmbOut) :=
  match c.keys (variantKeyBase variant) with
  | .error _ => []
  | .ok ks =>
      ks.filterMap fun k =>
        match c.hgetall k with
        | .error _ => none
        | .ok none => none
        | .ok (some h) =>
            some (k.replace (variantKeyBase variant) "",
              ⟨h.embedding, h.metadata, h.embedding_dimension, h.last_updated, variant⟩)

/-! ## Sorting by descending score -/

/-- One entry of `find_similar_items_by_embedding`'s result. -/
structure SimEntry where
  item : String
  similarity : ℝ
  metadata : List (String × String)
  embedding_type : String

/-- Descending-score order on similarity entries
(`similarities.sort(key=lambda x: x["similarity"], reverse=True)`). -/
def simGE (a b : SimEntry) : Prop := b.similarity ≤ a.similarity

noncomputable instance : DecidableRel simGE :=
  fun a b => inferInstanceAs (Decidable (b.similarity ≤ a.similarity))

instance : IsTotal SimEntry simGE := ⟨fun a b => le_total b.similarity a.similarity⟩

instance : IsTrans SimEntry simGE := ⟨fun _ _ _ hab hbc => le_trans hbc hab⟩

/-- Descending-score order on `(item, score)` pairs
(`similarities.sort(key=lambda x: x[1], reverse=True)`). -/
def pairGE (a b : String × ℝ) : Prop := b.2 ≤ a.2

noncomputable instance : DecidableRel pairGE :=
  fun a b => inferInstanceAs (Decidable (b.2 ≤ a.2))

instance : IsTotal (String × ℝ) pairGE := ⟨fun a b => le_total b.2 a.2⟩

instance : IsTrans (String × ℝ) pairGE := ⟨fun _ _ _ hab hbc => le_trans hbc hab⟩

/-- Descending-frequency order on `(item, frequency)` pairs
(`sorted(self.item_frequency.items(), key=lambda x: x[1], reverse=True)`). -/
def freqGE (a b : String × Nat) : Prop := b.2 ≤ a.2

instance : DecidableRel freqGE := fun a b => inferInstanceAs (Decidable (b.2 ≤ a.2))

instance : IsTotal (String × Nat) freqGE := ⟨fun a b => le_total b.2 a.2⟩

instance : IsTrans (String × Nat) freqGE := ⟨fun _ _ _ hab hbc => le_trans hbc hab⟩

/-- Models `RedisService.find_similar_items_by_embedding`: look up the target's
embedding (empty result if absent), scan the variant, score every other
item by cosine similarity, sort descending, truncate. -/
noncomputable def find_similar_items_by_embedding (c : Client)
    (target_item : String) (limit : Nat) (variant : String) : List SimEntry :=
  match get_item_embedding c target_item variant with
  | none => []
  | some t =>
      let sims := ((get_all_embeddings c variant).filter
          fun p => p.1 != target_item).map
        fun p => SimEntry.mk p.1 (calculate_cosine_similarity t.embedding p.2.embedding)
          p.2.metadata variant
      (sims.insertionSort simGE).take limit

/-! ## `EmbeddingService` (SVD variant, in-memory dict) -/

def lookupEmb (emb : List (String × List ℝ)) (item_name : String) : Option (List ℝ) :=
  (emb.find? fun p => p.1 == item_name).map (·.2)

/-- Models `EmbeddingService.calculate_similarity`: `0.0` when either item has
no embedding, otherwise `np.dot(v1, v2) / (np.linalg.norm(v1) * np.linalg.norm(v2))`. -/
noncomputable def calculate_similarity (emb : List (String × List ℝ))
    (item1 item2 : String) : ℝ :=
  match lookupEmb emb item1, lookupEmb emb item2 with
  | some v1, some v2 => dotProduct v1 v2 / (vecNorm v1 * vecNorm v2)
  | _, _ => 0

/-- Models `EmbeddingService.find_similar_items`: `[]` when the query has no
embedding; otherwise dot-product scores against every other item, sorted
descending and truncated to `limit`. -/
noncomputable def find_similar_items (emb : List (String × List ℝ))
    (item_name : String) (limit : Nat) : List (String × ℝ) :=
  match lookupEmb emb item_name with
  | none => []
  | some target =>
      let sims := (emb.filter fun p => p.1 != item_name).map
        fun p => (p.1, dotProduct target p.2)
      (sims.insertionSort pairGE).take limit

/-! ## `RecommendationService` (the orchestrator) -/

/-- The `reason` f-strings, kept structurally (float formatting is not
modelled; each constructor records exactly the data interpolated). -/
inductive RecReason where
  | popularItem (frequency : Nat)
  | hfSimilarity (score : ℝ)
  | basketSimilarity (score : ℝ)

/-- Models `app.models.recommendation.RecommendationItem`. -/
structure RecommendationItem where
  item_name : String
  similarity_score : ℝ
  reason : RecReason
  popularity_rank : Option Nat

/-- Models `RedisService.get_popular_items`: `GET popular_items`, parse, take
the first `limit` entries; errors and a missing key give `[]`. -/
def redis_get_popular_items (c : Client) (limit : Nat) : List (String × Nat) :=
  match c.popular with
  | .error _ => []
  | .ok none => []
  | .ok (some entries) => entries.take limit

/-- Models `RecommendationService.get_popular_items`: score each entry as
`min(frequency / 30245, 1.0)` — `max_frequency = 30245` is a hardcoded
constant in the source ("From our data analysis") — and attach the
1-based rank from `enumerate`. -/
noncomputable def get_popular_items (c : Client) (limit : Nat) :
    List RecommendationItem :=
  (redis_get_popular_items c limit).enum.map fun ip =>
    ⟨ip.2.1, min ((ip.2.2 : ℝ) / 30245) 1, .popularItem ip.2.2, some (ip.1 + 1)⟩

/-- Models `RecommendationService.get_similar_items`: wrap
`find_similar_items_by_embedding` results; there is no fallback branch
for an absent embedding. -/
noncomputable def get_similar_items (c : Client) (item_name : String)
    (limit : Nat) : List RecommendationItem :=
  (find_similar_items_by_embedding c item_name limit "cooccurrence").map
    fun d => ⟨d.item, d.similarity, .hfSimilarity d.similarity, none⟩

/-- Pointwise sum of equal-length vectors (`np.array(...).sum` rows). -/
def vecAdd (v w : List ℝ) : List ℝ := List.zipWith (· + ·) v w

def sumVecs : List (List ℝ) → List ℝ
  | [] => []
  | [v] => v
  | v :: rest => vecAdd v (sumVecs rest)

/-- Models `np.mean(embeddings_array, axis=0)`. -/
noncomputable def meanVec (l : List (List ℝ)) : List ℝ :=
  (sumVecs l).map fun x => x / (l.length : ℝ)

/-- Models the normalization `basket_embedding / np.linalg.norm(basket_embedding)`. -/
noncomputable def normalizeVec (v : List ℝ) : List ℝ :=
  v.map fun x => x / vecNorm v

/-- Models the basket-centroid builder of `RecommendationService`: `None` for an empty
basket; collect each member's embedding (a member whose record is missing
or whose embedding list is empty is skipped — the code tests Python
truthiness of the list); `None` when none remain; otherwise the
normalized mean. -/
noncomputable def create_basket_embedding (c : Client) (items : List String) :
    Option (List ℝ) :=
  if items.isEmpty then none
  else
    let embs := items.filterMap fun i =>
      match get_item_embedding c i "cooccurrence" with
      | some r => if r.embedding.isEmpty then none else some r.embedding
      | none => none
    if embs.isEmpty then none else some (normalizeVec (meanVec embs))

/-- Models the embedding search helper of `RecommendationService`: cosine
score of the target vector against every stored embedding (skipping
entries with an empty list), sorted descending, truncated. -/
noncomputable def find_items_similar_to_embedding (c : Client)
    (target : List ℝ) (limit : Nat) : List RecommendationItem :=
  let sims := (get_all_embeddings c "cooccurrence").filterMap fun p =>
    if p.2.embedding.isEmpty then none
    else some (p.1, calculate_cosine_similarity target p.2.embedding)
  ((sims.insertionSort pairGE).take limit).map fun q =>
    ⟨q.1, q.2, .basketSimilarity q.2, none⟩

/-- Models `RecommendationService.get_basket_recommendations`: if the basket
embedding cannot be built, fall back to `get_popular_items(limit)`;
otherwise search with `limit + len(items)`, drop basket members, truncate
to `limit`. -/
noncomputable def get_basket_recommendations (c : Client)
    (items : List String) (limit : Nat) : List RecommendationItem :=
  match create_basket_embedding c items with
  | none => get_popular_items c limit
  | some be =>
      let similar := find_items_similar_to_embedding c be (limit + items.length)
      (similar.filter fun r => !(items.contains r.item_name)).take limit

/-- Models `DataProcessor.get_popular_items`: the producer of the popularity
snapshot — frequencies sorted descending, truncated.  (`data_loader.py`
stores `get_popular_items(100)` under the `popular_items` key,
most-frequent first.) -/
def processor_get_popular_items (freq : List (String × Nat)) (limit : Nat) :
    List (String × Nat) :=
  (freq.insertionSort freqGE).take limit

/-- A serving snapshot with no embeddings and one popular item `"A"`
with frequency 10 (so the live maximum frequency is 10). -/
def cl1 : Client := okClient [] (some [("A", 10)])

/-- A serving snapshot with a two-entry popularity list, most-frequent
first. -/
def cl2 : Client := okClient [] (some [("A", 2), ("B", 1)])

/-! ## Helper lemmas -/

lemma dotProduct_comm (v w : List ℝ) : dotProduct v w = dotProduct w v := by
  unfold dotProduct
  rw [List.zipWith_comm (· * ·)]
  simp [mul_comm]

lemma count_filterMap_eq_sum {α β : Type} [BEq β] [LawfulBEq β] [DecidableEq β]
    (g : α → Option β) (p : β) :
    ∀ l : List α,
      (l.filterMap g).count p = (l.map fun x => if g x = some p then 1 else 0).sum := by
  intro l
  induction l with
  | nil => simp
  | cons x t ih =>
    cases h : g x with
    | none => simp [List.filterMap_cons, h, ih]
    | some b =>
      by_cases hb : b = p
      · subst hb
        simp [List.filterMap_cons, h, List.count_cons, ih, Nat.add_comm]
      · simp [List.filterMap_cons, h, List.count_cons, ih, hb]

lemma list_sum_range (f : ℕ → ℕ) :
    ∀ n, ((List.range n).map f).sum = ∑ i in Finset.range n, f i := by
  intro n
  induction n with
  | zero => simp
  | succ n ih =>
    rw [List.range_succ, List.map_append, List.sum_append, Finset.sum_range_succ, ih]
    simp

lemma count_orderIncrements (items : List String) (a b : String) :
    (orderIncrements items).count (a, b) =
      ∑ i in Finset.range items.length, ∑ j in Finset.range items.length,
        (if i ≠ j ∧ items.getD i "" = a ∧ items.getD j "" = b then 1 else 0) := by
  unfold orderIncrements
  rw [List.count_flatMap]
  rw [show (List.map
        ((fun l => List.count (a, b) l) ∘ fun i =>
          (List.range items.length).filterMap fun j =>
            if i ≠ j then some (items.getD i "", items.getD j "") else none)
        (List.range items.length)) =
      (List.map
        (fun i =>
          ((List.range items.length).filterMap fun j =>
            if i ≠ j then some (items.getD i "", items.getD j "") else none).count (a, b))
        (List.range items.length)) from rfl]
  rw [list_sum_range]
  refine Finset.sum_congr rfl fun i _ => ?_
  rw [count_filterMap_eq_sum, list_sum_range]
  refine Finset.sum_congr rfl fun j _ => ?_
  by_cases hij : i = j
  · simp [hij]
  · simp only [ne_eq, hij, not_false_eq_true, if_true, true_and]
    by_cases h1 : items.getD i "" = a
    · by_cases h2 : items.getD j "" = b
      · simp [h1, h2]
      · simp [h1, h2]
    · simp [h1]

lemma orderIncrements_count_symm (items : List String) (a b : String) :
    (orderIncrements items).count (a, b) = (orderIncrements items).count (b, a) := by
  rw [count_orderIncrements, count_orderIncrements]
  rw [Finset.sum_comm]
  refine Finset.sum_congr rfl fun i _ => Finset.sum_congr rfl fun j _ => ?_
  refine if_congr ?_ rfl rfl
  constructor
  · rintro ⟨h1, h2, h3⟩
    exact ⟨fun h => h1 h.symm, h3, h2⟩
  · rintro ⟨h1, h2, h3⟩
    exact ⟨fun h => h1 h.symm, h3, h2⟩

lemma getLast?_append_of_ne_nil (l1 l2 : List Char) (h : l2 ≠ []) :
    (l1 ++ l2).getLast? = l2.getLast? := by
  rw [List.getLast?_append]
  cases hl : l2.getLast? with
  | none => exact absurd (List.getLast?_eq_none_iff.mp hl) h
  | some c => rfl

lemma lstrip_of_head (c : Char) (t : List Char) (h : pyWs c = false) :
    lstrip (c :: t) = c :: t := by
  simp [lstrip, List.dropWhile_cons, h]

lemma dropWhile_idem (p : Char → Bool) (l : List Char) :
    (l.dropWhile p).dropWhile p = l.dropWhile p := by
  induction l with
  | nil => rfl
  | cons c t ih =>
    by_cases hc : p c
    · simp [List.dropWhile_cons, hc, ih]
    · simp [List.dropWhile_cons, hc]

lemma lstrip_idem (l : List Char) : lstrip (lstrip l) = lstrip l :=
  dropWhile_idem pyWs l

lemma rstrip_idem (l : List Char) : rstrip (rstrip l) = rstrip l := by
  unfold rstrip
  rw [List.reverse_reverse, dropWhile_idem]

lemma lstrip_head_not_ws (l : List Char) (h : lstrip l = l) :
    ∀ c t, l = c :: t → pyWs c = false := by
  intro c t hl
  subst hl
  unfold lstrip at h
  rw [List.dropWhile_cons] at h
  by_cases hc : pyWs c
  · rw [if_pos hc] at h
    have hlen := congrArg List.length h
    have hle := (List.dropWhile_sublist (l := t) pyWs).length_le
    simp at hlen
    omega
  · cases hpc : pyWs c with
    | false => rfl
    | true => exact absurd hpc hc

lemma lstrip_rstrip (m : List Char) (h : lstrip m = m) :
    lstrip (rstrip m) = rstrip m := by
  cases m with
  | nil => rfl
  | cons c t =>
    have hc : pyWs c = false := lstrip_head_not_ws _ h c t rfl
    cases hr : rstrip (c :: t) with
    | nil => rfl
    | cons d u =>
      have hne : (c :: t).reverse.dropWhile pyWs ≠ [] := by
        intro h0
        have : rstrip (c :: t) = [] := by
          unfold rstrip
          rw [h0]
          rfl
        rw [hr] at this
        exact List.cons_ne_nil d u this
      obtain ⟨m0, hm0⟩ := List.dropWhile_suffix (l := (c :: t).reverse) pyWs
      have hlast : ((c :: t).reverse.dropWhile pyWs).getLast? = some c := by
        have h1 : (m0 ++ (c :: t).reverse.dropWhile pyWs).getLast?
            = ((c :: t).reverse.dropWhile pyWs).getLast? :=
          getLast?_append_of_ne_nil _ _ hne
        have h2 : ((c :: t).reverse).getLast? = some c := by
          rw [List.getLast?_reverse]
          rfl
        rw [hm0, h2] at h1
        exact h1.symm
      have hhead : (rstrip (c :: t)).head? = some c := by
        show ((c :: t).reverse.dropWhile pyWs).reverse.head? = some c
        rw [List.head?_reverse]
        exact hlast
      rw [hr] at hhead
      have hd : d = c := by simpa using hhead
      subst hd
      exact lstrip_of_head d u hc

lemma pyStrip_idem (l : List Char) : pyStrip (pyStrip l) = pyStrip l := by
  unfold pyStrip
  rw [lstrip_rstrip (lstrip l) (lstrip_idem l), rstrip_idem]

lemma cooccCount_symm (orders : List (List String)) (a b : String) :
    cooccCount orders a b = cooccCount orders b a := by
  unfold cooccCount
  rw [List.count_flatMap, List.count_flatMap]
  refine congrArg List.sum (List.map_congr_left fun o _ => ?_)
  exact orderIncrements_count_symm o a b

/-! ## Claim theorems -/

/-- Claim C3 (the code violates it): for the single order `["A", "A"]` —
an item appearing at two distinct positions — the build records a
self-pair count `count("A","A") = 2`, because the loop guard `i != j`
compares positions, not names, although the source comment says
"Don't count self-co-occurrence" and the spec says `count(a,a)` is never
recorded. -/
theorem selfpair_recorded_at_duplicate_order :
    cooccCount [["A", "A"]] "A" "A" = 2 := by decide

/-- Claim C10: `calculate_cosine_similarity` returns exactly `0` whenever
the two vectors have different lengths or either vector has zero
Euclidean norm (and it is a total function, so it never divides by zero). -/
theorem cosine_zero_cases (v1 v2 : List ℝ)
    (h : v1.length ≠ v2.length ∨ vecNorm v1 = 0 ∨ vecNorm v2 = 0) :
    calculate_cosine_similarity v1 v2 = 0 := by
  unfold calculate_cosine_similarity
  split_ifs with h1 h2
  · rfl
  · rfl
  · rcases h with h | h
    · exact absurd h h1
    · exact absurd h h2

/-- Witness for C10 at the concrete pair `[1]`, `[]` (length mismatch). -/
theorem cosine_zero_cases_witness :
    (([(1 : ℝ)]).length ≠ ([] : List ℝ).length
      ∨ vecNorm [(1 : ℝ)] = 0 ∨ vecNorm ([] : List ℝ) = 0)
    ∧ calculate_cosine_similarity [(1 : ℝ)] [] = 0 :=
  ⟨Or.inl (by decide), cosine_zero_cases [(1 : ℝ)] [] (Or.inl (by decide))⟩

/-- Claim C7: storing an embedding with `set_item_embedding` and reading
it back with `get_item_embedding` for the same (cooccurrence) variant
returns the stored vector exactly, with `embedding_dimension` equal to
the vector's length and the stored metadata. -/
theorem embedding_roundtrip (st : Store) (pop : Option (List (String × Nat)))
    (item_name : String) (v : List ℝ) (meta : List (String × String)) (now : String) :
    get_item_embedding (okClient (set_item_embedding st item_name v meta now) pop)
        item_name "cooccurrence"
      = some ⟨v, meta, v.length, now, "cooccurrence"⟩ := by
  have hv : variantKeyBase "cooccurrence" = "item:" := by decide
  simp [get_item_embedding, hv, okClient, set_item_embedding, hsetStore, hgetallStore,
    List.find?_cons_of_pos]

/-- Claim C9 (the code violates it; amended): every store-level failure
is caught inside `RedisService`: with a client whose every operation
fails, `find_similar_items_by_embedding` returns the ordinary empty list
and `get_all_embeddings` the empty dict, so a backend failure is not
distinguishable from "no similar items". -/
theorem store_failure_amended (target : String) (limit : Nat) (variant : String) :
    find_similar_items_by_embedding failClient target limit variant = []
    ∧ get_all_embeddings failClient variant = [] := by
  constructor
  · simp [find_similar_items_by_embedding, get_item_embedding, failClient]
  · simp [get_all_embeddings, failClient]

/-- Counterexample for C9: on the concrete query `"X"` with `limit = 5`,
the failing backend and a healthy-but-empty backend produce the very same
ordinary empty list, so the failure is not surfaced as a distinguishable
"unavailable" outcome. -/
theorem store_failure_counterexample :
    find_similar_items_by_embedding failClient "X" 5 "cooccurrence" = []
    ∧ find_similar_items_by_embedding (okClient [] none) "X" 5 "cooccurrence" = [] := by
  constructor
  · simp [find_similar_items_by_embedding, get_item_embedding, failClient]
  · simp [find_similar_items_by_embedding, get_item_embedding, okClient, hgetallStore]

/-- Claim C6: the co-occurrence matrix is symmetric
(`count(a,b) = count(b,a)` for every order list and every pair of items),
and `EmbeddingService.calculate_similarity` is symmetric in its two
items. -/
theorem cooccurrence_and_similarity_symm :
    (∀ (orders : List (List String)) (a b : String),
      cooccCount orders a b = cooccCount orders b a)
    ∧ ∀ (emb : List (String × List ℝ)) (item1 item2 : String),
      calculate_similarity emb item1 item2 = calculate_similarity emb item2 item1 := by
  constructor
  · exact fun orders a b => cooccCount_symm orders a b
  · intro emb i1 i2
    unfold calculate_similarity
    cases h1 : lookupEmb emb i1 <;> cases h2 : lookupEmb emb i2 <;>
      simp [dotProduct_comm, mul_comm]

/-- Claim C2 (the code violates it; amended): when the requested item has
no embedding for the variant, `RecommendationService.get_similar_items`
returns the empty list — there is no fallback to the popularity
ranking. -/
theorem similar_absent_embedding_empty (c : Client) (item_name : String) (limit : Nat)
    (h : get_item_embedding c item_name "cooccurrence" = none) :
    get_similar_items c item_name limit = [] := by
  unfold get_similar_items find_similar_items_by_embedding
  rw [h]
  rfl

/-- Witness for C2's amended theorem on a store with no embeddings. -/
theorem similar_absent_embedding_empty_witness :
    get_item_embedding (okClient [] none) "X" "cooccurrence" = none
    ∧ get_similar_items (okClient [] none) "X" 5 = [] :=
  ⟨rfl, similar_absent_embedding_empty (okClient [] none) "X" 5 rfl⟩

/-- Counterexample for C2: in the snapshot `cl1` the item `"X"` has no
embedding and the popularity snapshot is non-empty, yet
`get_similar_items` returns `[]` rather than the non-empty
`get_popular_items` fallback the claim promises. -/
theorem similar_fallback_counterexample :
    get_similar_items cl1 "X" 1 = []
    ∧ get_popular_items cl1 1 ≠ [] := by
  constructor
  · simp [get_similar_items, find_similar_items_by_embedding, get_item_embedding,
      cl1, okClient, hgetallStore]
  · simp [get_popular_items, redis_get_popular_items, cl1, okClient]

/-- Claim C4 (the code violates it; amended): when no basket member has a
usable embedding, `RecommendationService.get_basket_recommendations`
falls back to plain `get_popular_items(limit)` — not to
`popular(limit + |items|)` and without filtering basket members out. -/
theorem basket_fallback_amended (c : Client) (items : List String) (limit : Nat)
    (h : ∀ i ∈ items, get_item_embedding c i "cooccurrence" = none) :
    get_basket_recommendations c items limit = get_popular_items c limit := by
  have hnone : create_basket_embedding c items = none := by
    unfold create_basket_embedding
    by_cases he : items.isEmpty
    · simp [he]
    · have hfm : (items.filterMap fun i =>
          match get_item_embedding c i "cooccurrence" with
          | some r => if r.embedding.isEmpty then none else some r.embedding
          | none => none) = [] :=
        List.filterMap_eq_nil_iff.2 fun i hi => by rw [h i hi]
      rw [if_neg (by simpa using he), hfm]
      rfl
  unfold get_basket_recommendations
  rw [hnone]

/-- Witness for C4's amended theorem on a store with no embeddings. -/
theorem basket_fallback_amended_witness :
    get_basket_recommendations (okClient [] none) ["B"] 3
      = get_popular_items (okClient [] none) 3 :=
  basket_fallback_amended (okClient [] none) ["B"] 3
    (by intro i hi; simp at hi; subst hi; rfl)

/-- Counterexample for C4: in the snapshot `cl1` the basket `["A"]` has
no embeddings, and the fallback result contains the basket member `"A"`
itself (it is the most popular item), contradicting the claim that no
basket member ever appears in the fallback result. -/
theorem basket_fallback_counterexample :
    "A" ∈ (get_basket_recommendations cl1 ["A"] 1).map RecommendationItem.item_name := by
  have hnone : create_basket_embedding cl1 ["A"] = none := rfl
  unfold get_basket_recommendations
  rw [hnone]
  simp [get_popular_items, redis_get_popular_items, cl1, okClient]

/-- Claim C5: both nearest-neighbor searches
(`EmbeddingService.find_similar_items` and
`RedisService.find_similar_items_by_embedding`) return a list sorted by
non-increasing similarity score, of length at most the requested limit,
in which the query item never appears. -/
theorem nearest_sorted_bounded_excluding :
    (∀ (emb : List (String × List ℝ)) (item_name : String) (limit : Nat),
      List.Sorted pairGE (find_similar_items emb item_name limit)
      ∧ (find_similar_items emb item_name limit).length ≤ limit
      ∧ ∀ r ∈ find_similar_items emb item_name limit, r.1 ≠ item_name)
    ∧ ∀ (c : Client) (target : String) (limit : Nat) (variant : String),
      List.Sorted simGE (find_similar_items_by_embedding c target limit variant)
      ∧ (find_similar_items_by_embedding c target limit variant).length ≤ limit
      ∧ ∀ r ∈ find_similar_items_by_embedding c target limit variant, r.item ≠ target := by
  constructor
  · intro emb item_name limit
    unfold find_similar_items
    cases h : lookupEmb emb item_name with
    | none => simp
    | some target =>
      refine ⟨?_, ?_, ?_⟩
      · exact List.Pairwise.sublist (List.take_sublist _ _)
          (List.sorted_insertionSort pairGE _)
      · exact List.length_take_le _ _
      · intro r hr
        have hr1 := List.mem_of_mem_take hr
        rw [List.mem_insertionSort] at hr1
        obtain ⟨p, hp, rfl⟩ := List.mem_map.1 hr1
        have hp2 := (List.mem_filter.1 hp).2
        simpa [bne_iff_ne] using hp2
  · intro c target limit variant
    unfold find_similar_items_by_embedding
    cases h : get_item_embedding c target variant with
    | none => simp
    | some t =>
      refine ⟨?_, ?_, ?_⟩
      · exact List.Pairwise.sublist (List.take_sublist _ _)
          (List.sorted_insertionSort simGE _)
      · exact List.length_take_le _ _
      · intro r hr
        have hr1 := List.mem_of_mem_take hr
        rw [List.mem_insertionSort] at hr1
        obtain ⟨p, hp, rfl⟩ := List.mem_map.1 hr1
        have hp2 := (List.mem_filter.1 hp).2
        simpa [bne_iff_ne] using hp2

/-- Counterexample for C1: in the snapshot `cl1` the live maximum
frequency is 10, so the claimed score of the top item is
`min(10/10, 1) = 1`; the code instead produces `min(10/30245, 1)`,
normalizing by the hardcoded historical constant — and the two differ. -/
theorem popular_score_counterexample :
    (get_popular_items cl1 1).map RecommendationItem.similarity_score
      = [min ((10 : ℝ) / 30245) 1]
    ∧ min ((10 : ℝ) / 30245) 1 ≠ min ((10 : ℝ) / 10) 1 := by
  constructor
  · simp [get_popular_items, redis_get_popular_items, cl1, okClient]
  · have h1 : min ((10 : ℝ) / 30245) 1 = 10 / 30245 := min_eq_left (by norm_num)
    have h2 : min ((10 : ℝ) / 10) 1 = 1 := by norm_num
    rw [h1, h2]
    norm_num

/-- Claim C1 (the code violates the score formula; amended):
`get_popular_items` serves the stored snapshot in its most-frequent-first
order — the producer `DataProcessor.get_popular_items` does sort by
frequency descending — so the scores are non-increasing, but each score
is `min(frequency / 30245, 1)` with `30245` a constant hardcoded from a
past data analysis, not the live snapshot maximum. -/
theorem popular_amended (freq pop : List (String × Nat)) (c : Client) (limit n : Nat)
    (hpop : c.popular = Except.ok (some pop))
    (hsorted : List.Sorted freqGE pop) :
    List.Sorted (fun x y : ℝ => y ≤ x)
      ((get_popular_items c limit).map RecommendationItem.similarity_score)
    ∧ (∀ r ∈ get_popular_items c limit, ∃ p ∈ pop,
        r.item_name = p.1 ∧ r.similarity_score = min ((p.2 : ℝ) / 30245) 1)
    ∧ List.Sorted freqGE (processor_get_popular_items freq n) := by
  have hred : redis_get_popular_items c limit = pop.take limit := by
    unfold redis_get_popular_items
    rw [hpop]
  refine ⟨?_, ?_, ?_⟩
  · have hmap : (get_popular_items c limit).map RecommendationItem.similarity_score
        = (pop.take limit).map fun p => min ((p.2 : ℝ) / 30245) 1 := by
      unfold get_popular_items
      rw [hred, List.map_map]
      have hcomp : (RecommendationItem.similarity_score ∘ fun ip : Nat × (String × Nat) =>
            (⟨ip.2.1, min ((ip.2.2 : ℝ) / 30245) 1, .popularItem ip.2.2,
              some (ip.1 + 1)⟩ : RecommendationItem))
          = (fun p : String × Nat => min ((p.2 : ℝ) / 30245) 1) ∘ Prod.snd := rfl
      rw [hcomp, ← List.map_map, List.enum_map_snd]
    rw [hmap]
    have hs : List.Sorted freqGE (pop.take limit) :=
      List.Pairwise.sublist (List.take_sublist _ _) hsorted
    refine List.Pairwise.map _ (fun a b hab => ?_) hs
    have hcast : ((b.2 : ℝ)) ≤ ((a.2 : ℝ)) := by exact_mod_cast hab
    exact min_le_min (by gcongr) le_rfl
  · intro r hr
    unfold get_popular_items at hr
    rw [hred] at hr
    obtain ⟨ip, hip, rfl⟩ := List.mem_map.1 hr
    have hsnd : ip.2 ∈ (pop.take limit).enum.map Prod.snd := List.mem_map_of_mem _ hip
    rw [List.enum_map_snd] at hsnd
    exact ⟨ip.2, List.mem_of_mem_take hsnd, rfl, rfl⟩
  · exact List.Pairwise.sublist (List.take_sublist _ _)
      (List.sorted_insertionSort freqGE _)

/-- Witness for C1's amended theorem on the two-entry snapshot `cl2`. -/
theorem popular_amended_witness :
    List.Sorted (fun x y : ℝ => y ≤ x)
      ((get_popular_items cl2 2).map RecommendationItem.similarity_score)
    ∧ (∀ r ∈ get_popular_items cl2 2,
        ∃ p ∈ ([("A", 2), ("B", 1)] : List (String × Nat)),
        r.item_name = p.1 ∧ r.similarity_score = min ((p.2 : ℝ) / 30245) 1)
    ∧ List.Sorted freqGE (processor_get_popular_items [("A", 2), ("B", 1)] 2) :=
  popular_amended [("A", 2), ("B", 1)] [("A", 2), ("B", 1)] cl2 2 2 rfl (by decide)

/-- Counterexample for C8: on the input `"a b c-"` the code produces
`"a b c"` while the claimed pipeline (with no final trim) produces
`"a b c "` — the trailing separator becomes a trailing space that the
source's final `strip()` removes. -/
theorem preprocess_counterexample :
    preprocess_item_name "a b c-" = "a b c"
    ∧ claimedPreprocess "a b c-" = "a b c "
    ∧ preprocess_item_name "a b c-" ≠ claimedPreprocess "a b c-" :=
  ⟨by decide, by decide, by decide⟩

/-- Claim C8 (amended): for every item label, the code's preprocessing
produces exactly the claimed pipeline's output trimmed once more — the
source ends with an extra `strip()` call the claim does not mention —
and consequently the code's output is always strip-stable (it never
carries leading or trailing whitespace), whereas the claimed pipeline's
output can (see the counterexample). -/
theorem preprocess_amended (s : String) :
    preprocess_item_name s = stripString (claimedPreprocess s)
    ∧ stripString (preprocess_item_name s) = preprocess_item_name s := by
  constructor
  · rfl
  · show String.mk (pyStrip (preprocessCore s.toList)) = String.mk (preprocessCore s.toList)
    refine congrArg String.mk ?_
    unfold preprocessCore
    exact pyStrip_idem _

end Recommender
